import Mathlib

/-
Verification development for the incremental OneDrive-to-S3 change
synchronization script (onedrive_to_aws_sync.py).

The Python source is shallowly embedded: every network or filesystem
effect is driven by an explicit environment `Env` of oracles, and each
function additionally returns the list of observable `Event`s it emits,
in program order.  Exceptions are modelled with `Except RunError`.
-/

namespace OneDriveSync

/-- Configuration read from the environment variables used by the script
(`target_folder_prod`, `target_driveID_prod`, `driveId_prod`). -/
structure Config where
  target_folder : String
  target_driveID : String
  driveId_prod : String
  deriving Repr, DecidableEq

/-- The `parentReference` sub-object of a raw change record.  `path` is
optional because the script tests membership of the key with
`if 'path' in i['parentReference']`; `path_relative` is the field the
script itself adds at accumulation time. -/
structure ParentReference where
  driveId : String
  path : Option String
  path_relative : Option String
  deriving Repr, DecidableEq

/-- One raw entry of the delta feed.  `parentReference` is optional: the
script indexes `i['parentReference']` unconditionally, which raises
`KeyError` when the key is absent.  `hasFile` models the presence of the
`'file'` facet key tested by `if 'file' in value`. -/
structure ChangeRecord where
  id : String
  name : String
  parentReference : Option ParentReference
  hasFile : Bool
  deriving Repr, DecidableEq

/-- One parsed page of the delta feed: the `value` array and the optional
continuation and terminal markers. -/
structure DeltaPage where
  value : List ChangeRecord
  nextLink : Option String
  deltaLink : Option String
  deriving Repr, DecidableEq

/-- Outcome of one HTTP attempt against the delta feed:
a parsed page, an exception of the class caught by the script
(`requests.exceptions.HTTPError`), or any other exception. -/
inductive FetchOutcome where
  | ok (page : DeltaPage)
  | httpError
  | otherError
  deriving Repr

/-- Exceptions that can escape the embedded functions. -/
inductive RunError where
  | keyError
  | feedError
  | fetchError
  | authError
  deriving Repr, DecidableEq

/-- Observable events, emitted in program order. -/
inductive Event where
  | pageRequest (url : String) (attempt : Nat)
  | tokenAcquire
  | cursorSave (link : String)
  | transferStart (id : String)
  | contentRequest (id : String) (attempt : Nat)
  | stageWrite (name : String)
  | s3Call (action : String) (key : String)
  | fileRemove (path : String)
  | logError (context : String)
  | logSuccess (context : String)
  deriving Repr, DecidableEq

/-- Environment of external oracles driving one run: delta-page fetch
outcome per url and attempt, content fetch success per item id and
attempt, token acquisition success, S3 operation success per action and
key, local staging-write success, local file-removal success per path,
and the cursor payload stored in the bucket (when present). -/
structure Env where
  feed : String → Nat → FetchOutcome
  content : String → Nat → Bool
  tokenOk : Bool
  s3 : String → String → Bool
  writeOk : Bool
  removeOk : String → Bool
  storedCursor : Option String

/-- Bool test that `small` is an initial run of `big` (character lists). -/
def isLeadOf : List Char → List Char → Bool
  | [], _ => true
  | _ :: _, [] => false
  | a :: as, b :: bs => a == b && isLeadOf as bs

/-- Bool test that `needle` occurs contiguously inside `hay`. -/
def occursIn (needle : List Char) : List Char → Bool
  | [] => isLeadOf needle []
  | b :: bs => isLeadOf needle (b :: bs) || occursIn needle bs

/-- Python's substring test `needle in hay` on strings. -/
def strIn (needle hay : String) : Bool := occursIn needle.data hay.data

/-- Python's character slice `s[n:]`. -/
def pyDrop (s : String) (n : Nat) : String := { data := s.data.drop n }

/-- Python dict update `d[k] = v`: replace the value in place when the
key is present, otherwise append the binding at the end. -/
def dictUpdate (d : List (String × ChangeRecord)) (k : String) (v : ChangeRecord) :
    List (String × ChangeRecord) :=
  if d.any (fun kv => kv.1 == k) then
    d.map (fun kv => if kv.1 == k then (k, v) else kv)
  else d ++ [(k, v)]

/-- Embedding of `s3_ops` (source lines 16-36): attempts the named boto3
action, logs and returns `False` on an exception, otherwise logs success
and returns `True`.  An action other than `"upload"`/`"download"`
performs no store call and falls through to the success log. -/
def s3_ops (env : Env) (filename_local filename_s3 action : String) :
    List Event × Bool :=
  if action == "upload" then
    if env.s3 "upload" filename_s3 then
      ([Event.s3Call "upload" filename_s3, Event.logSuccess action], true)
    else ([Event.s3Call "upload" filename_s3, Event.logError action], false)
  else if action == "download" then
    if env.s3 "download" filename_s3 then
      ([Event.s3Call "download" filename_s3, Event.logSuccess action], true)
    else ([Event.s3Call "download" filename_s3, Event.logError action], false)
  else ([Event.logSuccess action], true)

/-- Embedding of the body of the `for i in delta_resp['value']` loop of
`delta_gather` (source lines 108-114) for one record: raise `KeyError`
when `parentReference` is absent, skip the record when it has no
`path`, and otherwise accept it (annotated with `path_relative`)
exactly when its name equals the target folder or its path contains the
target drive id. -/
def processRecord (cfg : Config) (r : ChangeRecord) :
    Except RunError (Option ChangeRecord) :=
  match r.parentReference with
  | none => .error .keyError
  | some pref =>
    match pref.path with
    | none => .ok none
    | some p =>
      if r.name == cfg.target_folder || strIn cfg.target_driveID p then
        .ok (some { r with
          parentReference := some ({ pref with path_relative := some (pyDrop p 80) }) })
      else .ok none

/-- The accumulation loop of `delta_gather` over the records of one page
(source lines 107-114), upserting accepted records keyed by `id`. -/
def accumulate (cfg : Config) (records : List ChangeRecord)
    (change_array : List (String × ChangeRecord)) :
    Except RunError (List (String × ChangeRecord)) :=
  match records with
  | [] => .ok change_array
  | r :: rest =>
    match processRecord cfg r with
    | .error e => .error e
    | .ok none => accumulate cfg rest change_array
    | .ok (some r2) => accumulate cfg rest (dictUpdate change_array r2.id r2)

/-- One page fetch with the script's retry (source lines 94-100): an
`HTTPError` is logged and the request repeated once with the same
headers; a second failure, or a non-`HTTPError` failure, escapes. -/
def fetchPage (env : Env) (url : String) : List Event × Except RunError DeltaPage :=
  match env.feed url 0 with
  | .ok p => ([Event.pageRequest url 0], .ok p)
  | .httpError =>
    match env.feed url 1 with
    | .ok p =>
      ([Event.pageRequest url 0, Event.logError "delta", Event.pageRequest url 1], .ok p)
    | _ =>
      ([Event.pageRequest url 0, Event.logError "delta", Event.pageRequest url 1],
       .error .feedError)
  | .otherError => ([Event.pageRequest url 0], .error .feedError)

/-- Embedding of `delta_gather` (source lines 93-134).  Note that the
record loop, the `nextLink` recursion and the `deltaLink` save are all
guarded by `if len(delta_resp['value'])>0`, so a page with an empty
`value` array returns immediately.  The `deltaLink` branch writes the
cursor to `/tmp/deltaLink.json`, uploads it with `s3_ops`, and on upload
success attempts to remove the local copy.  The `Nat` argument is
recursion fuel bounding the page chain length. -/
def delta_gather (env : Env) (cfg : Config) :
    Nat → String → List (String × ChangeRecord) →
    List Event × Except RunError (List (String × ChangeRecord))
  | 0, _, change_array => ([], .ok change_array)
  | fuel + 1, url, change_array =>
    let fp := fetchPage env url
    match fp.2 with
    | .error e => (fp.1, .error e)
    | .ok page =>
      if 0 < page.value.length then
        match accumulate cfg page.value change_array with
        | .error e => (fp.1, .error e)
        | .ok acc1 =>
          let nx :=
            match page.nextLink with
            | some nl => delta_gather env cfg fuel nl acc1
            | none => ([], .ok acc1)
          match nx.2 with
          | .error e => (fp.1 ++ nx.1, .error e)
          | .ok acc2 =>
            match page.deltaLink with
            | some dl =>
              let sv := s3_ops env "/tmp/deltaLink.json" "deltaLink.json" "upload"
              let cl :=
                if sv.2 then
                  if env.removeOk "/tmp/deltaLink.json" then
                    [Event.fileRemove "/tmp/deltaLink.json"]
                  else [Event.fileRemove "/tmp/deltaLink.json", Event.logError "remove"]
                else []
              (fp.1 ++ nx.1 ++ Event.cursorSave dl :: sv.1 ++ cl, .ok acc2)
            | none => (fp.1 ++ nx.1, .ok acc2)
      else (fp.1, .ok change_array)

/-- The S3 key computed at source line 78:
`file_metadata['parentReference']['path_relative'] + '/' + local_filename`,
raising `KeyError` when either key is absent. -/
def filename_s3 (r : ChangeRecord) : Except RunError String :=
  match r.parentReference with
  | none => .error .keyError
  | some pref =>
    match pref.path_relative with
    | none => .error .keyError
    | some prel => .ok (prel ++ "/" ++ r.name)

/-- Embedding of `onedrive_download` (source lines 40-90): content fetch
with one token re-acquisition and one retry (both uncaught on failure),
staging writes in a caught block, the two uploads through `s3_ops` with
discarded results, and the cleanup of the two staged files inside one
caught block, so a failure removing the content file skips the removal
of the metadata file. -/
def onedrive_download (env : Env) (r : ChangeRecord) :
    List Event × Except RunError Unit :=
  match r.parentReference with
  | none => ([], .error .keyError)
  | some _ =>
    let fetch : List Event × Bool :=
      if env.content r.id 0 then ([Event.contentRequest r.id 0], true)
      else if env.tokenOk then
        ([Event.contentRequest r.id 0, Event.logError "download", Event.tokenAcquire,
          Event.contentRequest r.id 1], env.content r.id 1)
      else ([Event.contentRequest r.id 0, Event.logError "download", Event.tokenAcquire],
        false)
    if fetch.2 then
      let local_path := "/tmp/" ++ r.name
      let wv := if env.writeOk then [Event.stageWrite r.name] else [Event.logError "save"]
      match filename_s3 r with
      | .error e => (fetch.1 ++ wv, .error e)
      | .ok key =>
        let u1 := s3_ops env local_path key "upload"
        let u2 := s3_ops env (local_path ++ ".json") (key ++ ".json") "upload"
        let cl :=
          if env.removeOk local_path then
            if env.removeOk (local_path ++ ".json") then
              [Event.fileRemove local_path, Event.fileRemove (local_path ++ ".json")]
            else [Event.fileRemove local_path, Event.fileRemove (local_path ++ ".json"),
              Event.logError "remove"]
          else [Event.fileRemove local_path, Event.logError "remove"]
        (fetch.1 ++ wv ++ u1.1 ++ u2.1 ++ cl, .ok ())
    else (fetch.1, .error .fetchError)

/-- The cursor-loading block of `main` (source lines 185-198): attempt
to download the stored cursor object; when it downloads and the local
file exists, read the stored `deltaLink` as the feed url and try to
remove the local copy (all failures caught and logged). -/
def cursorLoad (env : Env) (cfg : Config) : List Event × String :=
  let base := "https://graph.microsoft.com/v1.0/drives/" ++ cfg.driveId_prod ++ "/root/delta"
  let dl := s3_ops env "/tmp/deltaLink.json" "deltaLink.json" "download"
  if dl.2 then
    match env.storedCursor with
    | some l =>
      if env.removeOk "/tmp/deltaLink.json" then
        (dl.1 ++ [Event.fileRemove "/tmp/deltaLink.json"], l)
      else (dl.1 ++ [Event.fileRemove "/tmp/deltaLink.json", Event.logError "deltaLink"], l)
    | none => (dl.1, base)
  else (dl.1, base)

/-- The transfer loop of `main` (source lines 205-208): call
`onedrive_download` for every entry of the change set carrying the
`'file'` facet.  The call is not wrapped in any handler, so an
exception escaping `onedrive_download` aborts the loop. -/
def transferLoop (env : Env) : List (String × ChangeRecord) →
    List Event × Except RunError Unit
  | [] => ([], .ok ())
  | (_, v) :: rest =>
    if v.hasFile then
      let d := onedrive_download env v
      match d.2 with
      | .error e => (Event.transferStart v.id :: d.1, .error e)
      | .ok _ =>
        let t := transferLoop env rest
        (Event.transferStart v.id :: (d.1 ++ t.1), t.2)
    else transferLoop env rest

/-- Embedding of `main` (source lines 157-211): acquire a token (a
failure is logged but leaves `aadToken` unbound, so the run still
dies), load the cursor, drain the feed with `delta_gather` starting
from the empty change set, then run the transfer loop over the final
change set. -/
def main (env : Env) (cfg : Config) (fuel : Nat) : List Event × Except RunError Unit :=
  if env.tokenOk then
    let cu := cursorLoad env cfg
    let g := delta_gather env cfg fuel cu.2 []
    match g.2 with
    | .error e => (Event.tokenAcquire :: (cu.1 ++ g.1), .error e)
    | .ok s =>
      let t := transferLoop env s
      (Event.tokenAcquire :: (cu.1 ++ g.1 ++ t.1), t.2)
  else ([Event.tokenAcquire, Event.logError "token"], .error .authError)

/-- Relevance test of the accumulation step, written as one boolean:
the record carries a `parentReference` with a `path` and its name
equals the target folder or its path contains the target drive id. -/
def acceptsB (cfg : Config) (r : ChangeRecord) : Bool :=
  match r.parentReference with
  | none => false
  | some pref =>
    match pref.path with
    | none => false
    | some p => r.name == cfg.target_folder || strIn cfg.target_driveID p

/-- The `path_relative` annotation the accumulation step applies to an
accepted record. -/
def annotate (r : ChangeRecord) : ChangeRecord :=
  match r.parentReference with
  | none => r
  | some pref =>
    match pref.path with
    | none => r
    | some p =>
      { r with parentReference := some ({ pref with path_relative := some (pyDrop p 80) }) }

/-- A record enters the change set exactly when the accumulation step
maps it to an accepted (annotated) record. -/
def entersChangeSet (cfg : Config) (r : ChangeRecord) : Prop :=
  ∃ r2, processRecord cfg r = .ok (some r2)

/-- Concrete configuration used by the concrete scenarios below. -/
def cfgT : Config := { target_folder := "tf", target_driveID := "DID", driveId_prod := "drv" }

/-- Parent reference with the given path and no `path_relative` yet. -/
def mkPref (p : String) : ParentReference :=
  { driveId := "dr", path := some p, path_relative := none }

/-- Benign environment every concrete scenario starts from. -/
def baseEnv : Env := {
  feed := fun _ _ => FetchOutcome.otherError,
  content := fun _ _ => true,
  tokenOk := true,
  s3 := fun _ _ => true,
  writeOk := true,
  removeOk := fun _ => true,
  storedCursor := some "cu" }

/-- A relevant file record, reachable only behind the empty page of `envC1`. -/
def recC1 : ChangeRecord :=
  { id := "R1", name := "tf", parentReference := some (mkPref "a"), hasFile := true }

/-- A page with zero change entries that still carries a next-page marker. -/
def pgC1a : DeltaPage := { value := [], nextLink := some "u1", deltaLink := none }

/-- The page behind the next-page marker of `pgC1a`. -/
def pgC1b : DeltaPage := { value := [recC1], nextLink := none, deltaLink := some "d1" }

/-- Feed whose first page `"u0"` is empty but has a continuation to `"u1"`. -/
def envC1 : Env :=
  { baseEnv with feed := fun u _ => if u = "u0" then .ok pgC1a else .ok pgC1b }

/-- A terminal page with zero change entries and a terminal marker. -/
def pgC2 : DeltaPage := { value := [], nextLink := none, deltaLink := some "nc" }

/-- Feed consisting of the single empty terminal page `pgC2`. -/
def envC2 : Env := { baseEnv with feed := fun _ _ => .ok pgC2 }

/-- First of two irrelevant records sharing id `"X"`. -/
def recC3a : ChangeRecord :=
  { id := "X", name := "n1", parentReference := some (mkPref "p1"), hasFile := true }

/-- Second of two irrelevant records sharing id `"X"`. -/
def recC3b : ChangeRecord :=
  { id := "X", name := "n2", parentReference := some (mkPref "p2"), hasFile := true }

/-- A single terminal page carrying both `"X"` records. -/
def pgC3 : DeltaPage := { value := [recC3a, recC3b], nextLink := none, deltaLink := some "dc" }

/-- Feed consisting of the single page `pgC3`. -/
def envC3 : Env := { baseEnv with feed := fun _ _ => .ok pgC3 }

/-- First accepted record with id `"X"` (name matches the target folder). -/
def recC3w1 : ChangeRecord :=
  { id := "X", name := "tf", parentReference := some (mkPref "q1"), hasFile := true }

/-- Second accepted record with id `"X"`, later in traversal order. -/
def recC3w2 : ChangeRecord :=
  { id := "X", name := "tf", parentReference := some (mkPref "q2"), hasFile := true }

/-- An empty terminal page used as the successful retry response. -/
def pgC4 : DeltaPage := { value := [], nextLink := none, deltaLink := none }

/-- Feed whose page fails with the retryable class once, then succeeds. -/
def envC4 : Env :=
  { baseEnv with feed := fun _ n => if n = 0 then .httpError else .ok pgC4 }

/-- Feed whose page fails with the retryable class on every attempt. -/
def envC4w : Env := { baseEnv with feed := fun _ _ => .httpError }

/-- A record whose name matches the target folder while its path does not
mention the target drive id. -/
def recC5 : ChangeRecord :=
  { id := "F", name := "tf", parentReference := some (mkPref "zz"), hasFile := true }

/-- A full parent path whose drive-identifier portion is exactly 80
characters, followed by the folder part. -/
def pathC6 : String :=
  "/drives/b!DIDAAAAAAAAAAAAAAAAAAAAAAAAAAAAAAAAAAAAAAAAAAAAAAAAAAAAAAAAAAAAA/root:" ++
    "/Reports/Q1"

/-- A file record living under `pathC6`. -/
def recC6 : ChangeRecord :=
  { id := "Q", name := "rep.pdf", parentReference := some (mkPref pathC6), hasFile := true }

/-- Relevant file record `"A"` whose content fetch will keep failing. -/
def recC7a : ChangeRecord :=
  { id := "A", name := "fa", parentReference := some (mkPref "xDIDy"), hasFile := true }

/-- Relevant file record `"B"` placed after `"A"` in the change set. -/
def recC7b : ChangeRecord :=
  { id := "B", name := "fb", parentReference := some (mkPref "xDIDz"), hasFile := true }

/-- A single terminal page carrying records `"A"` and `"B"`. -/
def pgC7 : DeltaPage := { value := [recC7a, recC7b], nextLink := none, deltaLink := some "n7" }

/-- Feed delivering `pgC7`, with every content fetch of item `"A"` failing. -/
def envC7 : Env :=
  { baseEnv with feed := fun _ _ => .ok pgC7, content := fun i _ => !(i == "A") }

/-- Environment where every upload, staging write and removal fails, while
content fetches succeed. -/
def envC7w : Env := { baseEnv with
  feed := fun _ _ => .ok pgC7,
  s3 := fun _ _ => false,
  writeOk := false,
  removeOk := fun _ => false }

/-- The change set accumulated from `pgC7`. -/
def sC7 : List (String × ChangeRecord) := [("A", annotate recC7a), ("B", annotate recC7b)]

/-- An already-annotated file record staged at `/tmp/g`. -/
def recC8 : ChangeRecord :=
  { id := "G", name := "g",
    parentReference := some { driveId := "dr", path := some "xDIDy", path_relative := some "rel" },
    hasFile := true }

/-- Environment where removing the staged content file `/tmp/g` fails. -/
def envC8 : Env := { baseEnv with removeOk := fun p => !(p == "/tmp/g") }

/-- Environment where both uploads fail but removals succeed. -/
def envC8w : Env := { baseEnv with s3 := fun _ _ => false }

/-- A raw change record with no `parentReference` key at all. -/
def recC9 : ChangeRecord := { id := "N", name := "n", parentReference := none, hasFile := true }

/-- A single terminal page carrying the malformed record `recC9`. -/
def pgC9 : DeltaPage := { value := [recC9], nextLink := none, deltaLink := some "n9" }

/-- Feed consisting of the single page `pgC9`. -/
def envC9 : Env := { baseEnv with feed := fun _ _ => .ok pgC9 }

/-- Looking up the updated key after a value-replacing map. -/
theorem lookup_map_self (k : String) (v : ChangeRecord) :
    ∀ d : List (String × ChangeRecord),
      List.lookup k (d.map (fun kv => if kv.1 == k then (k, v) else kv)) =
        if d.any (fun kv => kv.1 == k) then some v else none
  | [] => by simp
  | kv :: d => by
    have ih := lookup_map_self k v d
    simp only [List.map_cons, List.any_cons]
    by_cases hk : kv.1 = k
    · have hb : (kv.1 == k) = true := beq_iff_eq.mpr hk
      rw [if_pos hb]
      simp only [hb, Bool.true_or]
      simp [List.lookup]
    · have hb : (kv.1 == k) = false := beq_eq_false_iff_ne.mpr hk
      have hb2 : (k == kv.1) = false := beq_eq_false_iff_ne.mpr (Ne.symm hk)
      rw [if_neg (by simp [hb])]
      simp only [hb, Bool.false_or]
      simpa [List.lookup, hb2] using ih

/-- A value-replacing map for key `k` does not change lookups of other keys. -/
theorem lookup_map_ne (k k2 : String) (v : ChangeRecord) (h : k2 ≠ k) :
    ∀ d : List (String × ChangeRecord),
      List.lookup k2 (d.map (fun kv => if kv.1 == k then (k, v) else kv)) =
        List.lookup k2 d
  | [] => rfl
  | kv :: d => by
    have ih := lookup_map_ne k k2 v h d
    simp only [List.map_cons]
    by_cases hk : kv.1 = k
    · have hb : (kv.1 == k) = true := beq_iff_eq.mpr hk
      have hb2 : (k2 == k) = false := beq_eq_false_iff_ne.mpr h
      have hb3 : (k2 == kv.1) = false := by rw [hk]; exact hb2
      rw [if_pos hb]
      simpa [List.lookup, hb2, hb3] using ih
    · have hb : (kv.1 == k) = false := beq_eq_false_iff_ne.mpr hk
      rw [if_neg (by simp [hb])]
      cases hq : (k2 == kv.1) with
      | true => simp [List.lookup, hq]
      | false => simpa [List.lookup, hq] using ih

/-- Lookup through a single appended binding. -/
theorem lookup_append_one (k k2 : String) (v : ChangeRecord) :
    ∀ d : List (String × ChangeRecord),
      List.lookup k2 (d ++ [(k, v)]) =
        match List.lookup k2 d with
        | some w => some w
        | none => if k2 == k then some v else none
  | [] => by
    cases hq : (k2 == k) <;> simp [List.lookup, hq]
  | kv :: d => by
    by_cases hk : k2 = kv.1
    · have hb : (k2 == kv.1) = true := beq_iff_eq.mpr hk
      simp only [List.cons_append, List.lookup, hb]
    · have hb : (k2 == kv.1) = false := beq_eq_false_iff_ne.mpr hk
      simp only [List.cons_append, List.lookup, hb]
      exact lookup_append_one k k2 v d

/-- A key absent from every binding looks up to `none`. -/
theorem lookup_of_any_false (k : String) :
    ∀ d : List (String × ChangeRecord), d.any (fun kv => kv.1 == k) = false →
      List.lookup k d = none
  | [], _ => by simp [List.lookup]
  | kv :: d, hany => by
    simp only [List.any_cons, Bool.or_eq_false_iff] at hany
    have hb : (k == kv.1) = false := by
      cases ht : (kv.1 == k) with
      | true => rw [ht] at hany; exact absurd hany.1 (by simp)
      | false => exact beq_eq_false_iff_ne.mpr (Ne.symm (beq_eq_false_iff_ne.mp ht))
    simp only [List.lookup, hb]
    exact lookup_of_any_false k d hany.2

/-- After `dictUpdate d k v`, key `k` looks up to `v`. -/
theorem lookup_dictUpdate_self (d : List (String × ChangeRecord)) (k : String)
    (v : ChangeRecord) : List.lookup k (dictUpdate d k v) = some v := by
  unfold dictUpdate
  split
  · next hany => rw [lookup_map_self, if_pos hany]
  · next hany =>
    rw [lookup_append_one, lookup_of_any_false k d (Bool.eq_false_iff.mpr hany)]
    simp

/-- `dictUpdate d k v` does not change lookups of other keys. -/
theorem lookup_dictUpdate_ne (d : List (String × ChangeRecord)) (k k2 : String)
    (v : ChangeRecord) (h : k2 ≠ k) :
    List.lookup k2 (dictUpdate d k v) = List.lookup k2 d := by
  unfold dictUpdate
  split
  · exact lookup_map_ne k k2 v h d
  · rw [lookup_append_one]
    have hb : (k2 == k) = false := beq_eq_false_iff_ne.mpr h
    cases hl : List.lookup k2 d <;> simp [hb]

/-- A value-replacing map does not change the key list. -/
theorem keys_map_update (k : String) (v : ChangeRecord) :
    ∀ d : List (String × ChangeRecord),
      (d.map (fun kv => if kv.1 == k then (k, v) else kv)).map Prod.fst = d.map Prod.fst
  | [] => rfl
  | kv :: d => by
    have ih := keys_map_update k v d
    simp only [List.map_cons]
    by_cases hk : kv.1 = k
    · have hb : (kv.1 == k) = true := beq_iff_eq.mpr hk
      rw [if_pos hb]
      rw [ih, hk]
    · have hb : (kv.1 == k) = false := beq_eq_false_iff_ne.mpr hk
      rw [if_neg (by simp [hb])]
      rw [ih]

/-- `dictUpdate` preserves distinctness of the keys. -/
theorem nodup_keys_dictUpdate (d : List (String × ChangeRecord)) (k : String)
    (v : ChangeRecord) (h : (d.map Prod.fst).Nodup) :
    ((dictUpdate d k v).map Prod.fst).Nodup := by
  unfold dictUpdate
  split
  · rw [keys_map_update]
    exact h
  · next hany =>
    rw [List.map_append, List.nodup_append]
    refine ⟨h, List.nodup_singleton k, ?_⟩
    intro a ha hb
    simp only [List.map_cons, List.map_nil, List.mem_singleton] at hb
    subst hb
    simp only [List.mem_map] at ha
    rcases ha with ⟨kv, hkv, hfst⟩
    have hb1 : (kv.1 == a) = true := beq_iff_eq.mpr hfst
    have : d.any (fun kv => kv.1 == a) = true := List.any_eq_true.mpr ⟨kv, hkv, hb1⟩
    simp_all

/-- A successful lookup means the key is among the keys. -/
theorem lookup_some_mem_keys (k : String) (v : ChangeRecord) :
    ∀ d : List (String × ChangeRecord), List.lookup k d = some v → k ∈ d.map Prod.fst
  | [], h => by simp [List.lookup] at h
  | kv :: d, h => by
    cases hq : (k == kv.1) with
    | true =>
      simp only [List.map_cons, List.mem_cons]
      exact Or.inl (beq_iff_eq.mp hq)
    | false =>
      simp only [List.lookup, hq] at h
      simp only [List.map_cons, List.mem_cons]
      exact Or.inr (lookup_some_mem_keys k v d h)

/-- Annotation does not change the record's id. -/
theorem annotate_id (r : ChangeRecord) : (annotate r).id = r.id := by
  cases hpr : r.parentReference with
  | none => simp [annotate, hpr]
  | some pref => cases hp : pref.path <;> simp [annotate, hpr, hp]

/-- Annotation does not change the record's `hasFile` flag. -/
theorem annotate_hasFile (r : ChangeRecord) : (annotate r).hasFile = r.hasFile := by
  cases hpr : r.parentReference with
  | none => simp [annotate, hpr]
  | some pref => cases hp : pref.path <;> simp [annotate, hpr, hp]

/-- A record without `parentReference` makes the accumulation step raise. -/
theorem processRecord_missing (cfg : Config) (r : ChangeRecord)
    (h : r.parentReference = none) : processRecord cfg r = .error .keyError := by
  simp [processRecord, h]

/-- An accepted record is mapped to its annotated form. -/
theorem processRecord_of_acceptsB (cfg : Config) (r : ChangeRecord)
    (h : acceptsB cfg r = true) : processRecord cfg r = .ok (some (annotate r)) := by
  cases hpr : r.parentReference with
  | none => simp [acceptsB, hpr] at h
  | some pref =>
    cases hp : pref.path with
    | none => simp [acceptsB, hpr, hp] at h
    | some p =>
      simp only [acceptsB, hpr, hp] at h
      simp only [processRecord, annotate, hpr, hp]
      rw [if_pos h]

/-- A record the relevance test rejects is skipped (when it has a
`parentReference` at all). -/
theorem processRecord_of_not_acceptsB (cfg : Config) (r : ChangeRecord)
    (pref : ParentReference) (hpr : r.parentReference = some pref)
    (h : acceptsB cfg r = false) : processRecord cfg r = .ok none := by
  cases hp : pref.path with
  | none => simp [processRecord, hpr, hp]
  | some p =>
    simp only [acceptsB, hpr, hp] at h
    simp only [processRecord, hpr, hp]
    rw [if_neg (by simp [h])]

/-- The accumulation step can only raise `KeyError`. -/
theorem processRecord_error_eq (cfg : Config) (r : ChangeRecord) (e : RunError)
    (h : processRecord cfg r = .error e) : e = .keyError ∧ r.parentReference = none := by
  cases hpr : r.parentReference with
  | none =>
    rw [processRecord_missing cfg r hpr] at h
    exact ⟨(Except.error.injEq _ _).mp h.symm ▸ rfl, rfl⟩
  | some pref =>
    cases hp : pref.path with
    | none => simp [processRecord, hpr, hp] at h
    | some p =>
      simp only [processRecord, hpr, hp] at h
      split at h <;> simp at h

/-- Acceptance read back from a successful accumulation step. -/
theorem acceptsB_of_processRecord_some (cfg : Config) (r r2 : ChangeRecord)
    (h : processRecord cfg r = .ok (some r2)) :
    acceptsB cfg r = true ∧ r2 = annotate r := by
  cases hpr : r.parentReference with
  | none => rw [processRecord_missing cfg r hpr] at h; simp at h
  | some pref =>
    cases hp : pref.path with
    | none => simp [processRecord, hpr, hp] at h
    | some p =>
      simp only [processRecord, hpr, hp] at h
      split at h
      · next hcond =>
        simp only [Except.ok.injEq, Option.some.injEq] at h
        refine ⟨by simp [acceptsB, hpr, hp, hcond], ?_⟩
        rw [← h]
        simp [annotate, hpr, hp]
      · simp at h

/-- Rejection read back from a skipping accumulation step. -/
theorem acceptsB_of_processRecord_none (cfg : Config) (r : ChangeRecord)
    (h : processRecord cfg r = .ok none) : acceptsB cfg r = false := by
  cases hpr : r.parentReference with
  | none => rw [processRecord_missing cfg r hpr] at h; simp at h
  | some pref =>
    cases hp : pref.path with
    | none => simp [acceptsB, hpr, hp]
    | some p =>
      simp only [processRecord, hpr, hp] at h
      simp only [acceptsB, hpr, hp]
      split at h
      · simp at h
      · next hcond => simpa using hcond

/-- A record with no `parentReference` anywhere in the list makes the
whole accumulation loop raise `KeyError`. -/
theorem accumulate_error_of_missing (cfg : Config) (r : ChangeRecord) :
    ∀ (records : List ChangeRecord) (acc : List (String × ChangeRecord)),
      r ∈ records → r.parentReference = none →
      accumulate cfg records acc = .error .keyError
  | [], _, hmem, _ => absurd hmem (List.not_mem_nil r)
  | x :: rest, acc, hmem, hpr => by
    rcases List.mem_cons.mp hmem with hx | hx
    · subst hx
      simp [accumulate, processRecord_missing cfg r hpr]
    · cases hp : processRecord cfg x with
      | error e =>
        have := (processRecord_error_eq cfg x e hp).1
        subst this
        simp [accumulate, hp]
      | ok o =>
        cases o with
        | none =>
          simpa [accumulate, hp] using
            accumulate_error_of_missing cfg r rest acc hx hpr
        | some r2 =>
          simpa [accumulate, hp] using
            accumulate_error_of_missing cfg r rest (dictUpdate acc r2.id r2) hx hpr

/-- Main invariant of the accumulation loop: key distinctness is
preserved, and each key looks up to the annotation of the last accepted
record carrying it (or keeps its previous binding when none does). -/
theorem accumulate_lookup (cfg : Config) (k : String) :
    ∀ (records : List ChangeRecord) (acc s : List (String × ChangeRecord)),
      (acc.map Prod.fst).Nodup →
      accumulate cfg records acc = .ok s →
      (s.map Prod.fst).Nodup ∧
        (match (records.filter (fun r => acceptsB cfg r && r.id == k)).getLast? with
         | some w => List.lookup k s = some (annotate w)
         | none => List.lookup k s = List.lookup k acc)
  | [], acc, s, hnd, hacc => by
    simp only [accumulate, Except.ok.injEq] at hacc
    subst hacc
    exact ⟨hnd, by simp⟩
  | r :: rest, acc, s, hnd, hacc => by
    cases hp : processRecord cfg r with
    | error e => simp [accumulate, hp] at hacc
    | ok o =>
      cases o with
      | none =>
        have hrej : acceptsB cfg r = false := acceptsB_of_processRecord_none cfg r hp
        have ih := accumulate_lookup cfg k rest acc s hnd
          (by simpa [accumulate, hp] using hacc)
        simpa [List.filter_cons, hrej] using ih
      | some r2 =>
        rcases acceptsB_of_processRecord_some cfg r r2 hp with ⟨hok, hr2⟩
        have hupd : accumulate cfg rest (dictUpdate acc r2.id r2) = .ok s := by
          simpa [accumulate, hp] using hacc
        have hnd2 : ((dictUpdate acc r2.id r2).map Prod.fst).Nodup :=
          nodup_keys_dictUpdate acc r2.id r2 hnd
        have ih := accumulate_lookup cfg k rest (dictUpdate acc r2.id r2) s hnd2 hupd
        refine ⟨ih.1, ?_⟩
        have ht := ih.2
        by_cases hid : r.id = k
        · have hidb : (r.id == k) = true := beq_iff_eq.mpr hid
          have hcond : (acceptsB cfg r && (r.id == k)) = true := by
            rw [hok, hidb]
            rfl
          rw [List.filter_cons, if_pos hcond]
          cases hfr : rest.filter (fun r => acceptsB cfg r && r.id == k) with
          | nil =>
            rw [hfr] at ht
            simp only [List.getLast?_nil] at ht
            simp only [List.getLast?_singleton]
            have hkid : r2.id = k := by rw [hr2, annotate_id]; exact hid
            rw [ht, ← hkid, lookup_dictUpdate_self acc r2.id r2, hr2]
          | cons b bs =>
            rw [hfr] at ht
            rw [List.getLast?_cons_cons]
            cases hbl : (b :: bs).getLast? with
            | none =>
              rw [List.getLast?_eq_none_iff] at hbl
              exact absurd hbl (by simp)
            | some w =>
              rw [hbl] at ht
              exact ht
        · have hidb : (r.id == k) = false := beq_eq_false_iff_ne.mpr hid
          have hcond : (acceptsB cfg r && (r.id == k)) = false := by
            rw [hidb, Bool.and_false]
          rw [List.filter_cons, if_neg (by simp [hcond])]
          cases hlast : (rest.filter (fun r => acceptsB cfg r && r.id == k)).getLast? with
          | some w =>
            rw [hlast] at ht
            exact ht
          | none =>
            rw [hlast] at ht
            rw [ht]
            have hkne : k ≠ r2.id := by
              rw [hr2, annotate_id]
              exact fun hc => hid hc.symm
            exact lookup_dictUpdate_ne acc r2.id k r2 hkne

/-- Shape of the events a page fetch can emit. -/
theorem fetchPage_events (env : Env) (url : String) (e : Event)
    (hmem : e ∈ (fetchPage env url).1) :
    (∃ n, e = Event.pageRequest url n) ∨ e = Event.logError "delta" := by
  unfold fetchPage at hmem
  cases h0 : env.feed url 0 with
  | ok p =>
    rw [h0] at hmem
    simp only [List.mem_singleton] at hmem
    exact Or.inl ⟨0, hmem⟩
  | httpError =>
    rw [h0] at hmem
    cases h1 : env.feed url 1 with
    | ok p =>
      rw [h1] at hmem
      rcases List.mem_cons.mp hmem with h | h
      · exact Or.inl ⟨0, h⟩
      · rcases List.mem_cons.mp h with h | h
        · exact Or.inr h
        · simp only [List.mem_singleton] at h
          exact Or.inl ⟨1, h⟩
    | httpError =>
      rw [h1] at hmem
      rcases List.mem_cons.mp hmem with h | h
      · exact Or.inl ⟨0, h⟩
      · rcases List.mem_cons.mp h with h | h
        · exact Or.inr h
        · simp only [List.mem_singleton] at h
          exact Or.inl ⟨1, h⟩
    | otherError =>
      rw [h1] at hmem
      rcases List.mem_cons.mp hmem with h | h
      · exact Or.inl ⟨0, h⟩
      · rcases List.mem_cons.mp h with h | h
        · exact Or.inr h
        · simp only [List.mem_singleton] at h
          exact Or.inl ⟨1, h⟩
  | otherError =>
    rw [h0] at hmem
    simp only [List.mem_singleton] at hmem
    exact Or.inl ⟨0, hmem⟩

/-- Shape of the events an `s3_ops` call can emit. -/
theorem s3_ops_events (env : Env) (fl fs a : String) (e : Event)
    (hmem : e ∈ (s3_ops env fl fs a).1) :
    (∃ x y, e = Event.s3Call x y) ∨ (∃ c, e = Event.logSuccess c) ∨
      (∃ c, e = Event.logError c) := by
  unfold s3_ops at hmem
  split at hmem
  · split at hmem
    · rcases List.mem_cons.mp hmem with h | h
      · exact Or.inl ⟨_, _, h⟩
      · simp only [List.mem_singleton] at h
        exact Or.inr (Or.inl ⟨_, h⟩)
    · rcases List.mem_cons.mp hmem with h | h
      · exact Or.inl ⟨_, _, h⟩
      · simp only [List.mem_singleton] at h
        exact Or.inr (Or.inr ⟨_, h⟩)
  · split at hmem
    · split at hmem
      · rcases List.mem_cons.mp hmem with h | h
        · exact Or.inl ⟨_, _, h⟩
        · simp only [List.mem_singleton] at h
          exact Or.inr (Or.inl ⟨_, h⟩)
      · rcases List.mem_cons.mp hmem with h | h
        · exact Or.inl ⟨_, _, h⟩
        · simp only [List.mem_singleton] at h
          exact Or.inr (Or.inr ⟨_, h⟩)
    · simp only [List.mem_singleton] at hmem
      exact Or.inr (Or.inl ⟨_, hmem⟩)

/-- Shape of the events a feed traversal can emit: page requests, log
lines, store calls, local removals and cursor saves, never a token
acquisition or an item transfer. -/
theorem delta_gather_events (env : Env) (cfg : Config) :
    ∀ (fuel : Nat) (url : String) (acc : List (String × ChangeRecord)) (e : Event),
      e ∈ (delta_gather env cfg fuel url acc).1 →
      (∃ u n, e = Event.pageRequest u n) ∨ (∃ c, e = Event.logError c) ∨
      (∃ c, e = Event.logSuccess c) ∨ (∃ x y, e = Event.s3Call x y) ∨
      (∃ p, e = Event.fileRemove p) ∨ (∃ l, e = Event.cursorSave l)
  | 0, url, acc, e => by
    intro hmem
    simp [delta_gather] at hmem
  | fuel + 1, url, acc, e => by
    intro hmem
    have hfp : e ∈ (fetchPage env url).1 →
        (∃ u n, e = Event.pageRequest u n) ∨ (∃ c, e = Event.logError c) ∨
        (∃ c, e = Event.logSuccess c) ∨ (∃ x y, e = Event.s3Call x y) ∨
        (∃ p, e = Event.fileRemove p) ∨ (∃ l, e = Event.cursorSave l) := by
      intro h
      rcases fetchPage_events env url e h with ⟨n, hn⟩ | hl
      · exact Or.inl ⟨url, n, hn⟩
      · exact Or.inr (Or.inl ⟨"delta", hl⟩)
    simp only [delta_gather] at hmem
    cases hres : (fetchPage env url).2 with
    | error e2 =>
      simp only [hres] at hmem
      exact hfp hmem
    | ok page =>
      simp only [hres] at hmem
      by_cases hlen : 0 < page.value.length
      · rw [if_pos hlen] at hmem
        cases hacc : accumulate cfg page.value acc with
        | error e3 =>
          simp only [hacc] at hmem
          exact hfp hmem
        | ok acc1 =>
          simp only [hacc] at hmem
          cases hnl : page.nextLink with
          | some nl =>
            simp only [hnl] at hmem
            cases hnx : (delta_gather env cfg fuel nl acc1).2 with
            | error e4 =>
              simp only [hnx] at hmem
              rcases List.mem_append.mp hmem with h | h
              · exact hfp h
              · exact delta_gather_events env cfg fuel nl acc1 e h
            | ok acc2 =>
              simp only [hnx] at hmem
              cases hdl : page.deltaLink with
              | some dl =>
                simp only [hdl] at hmem
                simp only [List.append_assoc, List.mem_append, List.mem_cons] at hmem
                rcases hmem with h | h | (h | h2) | h2
                · exact hfp h
                · exact delta_gather_events env cfg fuel nl acc1 e h
                · exact Or.inr (Or.inr (Or.inr (Or.inr (Or.inr ⟨dl, h⟩))))
                · rcases s3_ops_events env "/tmp/deltaLink.json" "deltaLink.json" "upload" e h2
                    with h3 | h3 | h3
                  · exact Or.inr (Or.inr (Or.inr (Or.inl h3)))
                  · exact Or.inr (Or.inr (Or.inl h3))
                  · exact Or.inr (Or.inl h3)
                · by_cases hsv : (s3_ops env "/tmp/deltaLink.json" "deltaLink.json" "upload").2
                  · rw [if_pos hsv] at h2
                    by_cases hrm : env.removeOk "/tmp/deltaLink.json"
                    · rw [if_pos hrm] at h2
                      simp only [List.mem_singleton] at h2
                      exact Or.inr (Or.inr (Or.inr (Or.inr (Or.inl ⟨_, h2⟩))))
                    · rw [if_neg hrm] at h2
                      rcases List.mem_cons.mp h2 with h3 | h3
                      · exact Or.inr (Or.inr (Or.inr (Or.inr (Or.inl ⟨_, h3⟩))))
                      · simp only [List.mem_singleton] at h3
                        exact Or.inr (Or.inl ⟨_, h3⟩)
                  · rw [if_neg hsv] at h2
                    simp at h2
              | none =>
                simp only [hdl] at hmem
                rcases List.mem_append.mp hmem with h | h
                · exact hfp h
                · exact delta_gather_events env cfg fuel nl acc1 e h
          | none =>
            simp only [hnl] at hmem
            cases hdl : page.deltaLink with
            | some dl =>
              simp only [hdl] at hmem
              simp only [List.append_assoc, List.mem_append, List.mem_cons,
                List.not_mem_nil, false_or] at hmem
              rcases hmem with h | (h | h2) | h2
              · exact hfp h
              · exact Or.inr (Or.inr (Or.inr (Or.inr (Or.inr ⟨dl, h⟩))))
              · rcases s3_ops_events env "/tmp/deltaLink.json" "deltaLink.json" "upload" e h2
                  with h3 | h3 | h3
                · exact Or.inr (Or.inr (Or.inr (Or.inl h3)))
                · exact Or.inr (Or.inr (Or.inl h3))
                · exact Or.inr (Or.inl h3)
              · by_cases hsv : (s3_ops env "/tmp/deltaLink.json" "deltaLink.json" "upload").2
                · rw [if_pos hsv] at h2
                  by_cases hrm : env.removeOk "/tmp/deltaLink.json"
                  · rw [if_pos hrm] at h2
                    simp only [List.mem_singleton] at h2
                    exact Or.inr (Or.inr (Or.inr (Or.inr (Or.inl ⟨_, h2⟩))))
                  · rw [if_neg hrm] at h2
                    rcases List.mem_cons.mp h2 with h3 | h3
                    · exact Or.inr (Or.inr (Or.inr (Or.inr (Or.inl ⟨_, h3⟩))))
                    · simp only [List.mem_singleton] at h3
                      exact Or.inr (Or.inl ⟨_, h3⟩)
                · rw [if_neg hsv] at h2
                  simp at h2
            | none =>
              simp only [hdl] at hmem
              rcases List.mem_append.mp hmem with h | h
              · exact hfp h
              · simp at h
      · rw [if_neg hlen] at hmem
        exact hfp hmem

/-- A page fetch never emits a cursor save. -/
theorem fetchPage_no_save (env : Env) (url : String) (l : String) :
    Event.cursorSave l ∉ (fetchPage env url).1 := by
  intro h
  rcases fetchPage_events env url _ h with ⟨n, hn⟩ | hl
  · exact Event.noConfusion hn
  · exact Event.noConfusion hl

/-- An `s3_ops` call never emits an item-transfer event. -/
theorem s3_ops_no_transfer (env : Env) (fl fs a i : String) :
    Event.transferStart i ∉ (s3_ops env fl fs a).1 := by
  intro h
  rcases s3_ops_events env fl fs a _ h with ⟨x, y, hh⟩ | ⟨c, hh⟩ | ⟨c, hh⟩ <;>
    exact Event.noConfusion hh

/-- The feed traversal never acquires a token: the page retry reuses the
same headers. -/
theorem delta_gather_no_token (env : Env) (cfg : Config) (fuel : Nat) (url : String)
    (acc : List (String × ChangeRecord)) :
    Event.tokenAcquire ∉ (delta_gather env cfg fuel url acc).1 := by
  intro h
  rcases delta_gather_events env cfg fuel url acc _ h with
    ⟨u, n, hh⟩ | ⟨c, hh⟩ | ⟨c, hh⟩ | ⟨x, y, hh⟩ | ⟨p, hh⟩ | ⟨l, hh⟩ <;>
    exact Event.noConfusion hh

/-- The feed traversal never starts an item transfer. -/
theorem delta_gather_no_transfer (env : Env) (cfg : Config) (fuel : Nat) (url : String)
    (acc : List (String × ChangeRecord)) (i : String) :
    Event.transferStart i ∉ (delta_gather env cfg fuel url acc).1 := by
  intro h
  rcases delta_gather_events env cfg fuel url acc _ h with
    ⟨u, n, hh⟩ | ⟨c, hh⟩ | ⟨c, hh⟩ | ⟨x, y, hh⟩ | ⟨p, hh⟩ | ⟨l, hh⟩ <;>
    exact Event.noConfusion hh

/-- A feed traversal that ends in an error has saved no cursor: every
pending `deltaLink` save block is skipped by the escaping exception. -/
theorem delta_gather_error_no_save (env : Env) (cfg : Config) :
    ∀ (fuel : Nat) (url : String) (acc : List (String × ChangeRecord))
      (e2 : RunError) (l : String),
      (delta_gather env cfg fuel url acc).2 = .error e2 →
      Event.cursorSave l ∉ (delta_gather env cfg fuel url acc).1
  | 0, url, acc, e2, l => by
    intro hres hmem
    simp [delta_gather] at hres
  | fuel + 1, url, acc, e2, l => by
    intro hres hmem
    simp only [delta_gather] at hres hmem
    cases hfr : (fetchPage env url).2 with
    | error e3 =>
      simp only [hfr] at hres hmem
      exact fetchPage_no_save env url l hmem
    | ok page =>
      simp only [hfr] at hres hmem
      by_cases hlen : 0 < page.value.length
      · rw [if_pos hlen] at hres hmem
        cases hacc : accumulate cfg page.value acc with
        | error e3 =>
          simp only [hacc] at hres hmem
          exact fetchPage_no_save env url l hmem
        | ok acc1 =>
          simp only [hacc] at hres hmem
          cases hnl : page.nextLink with
          | some nl =>
            simp only [hnl] at hres hmem
            cases hnx : (delta_gather env cfg fuel nl acc1).2 with
            | error e4 =>
              simp only [hnx] at hres hmem
              rcases List.mem_append.mp hmem with h | h
              · exact fetchPage_no_save env url l h
              · exact delta_gather_error_no_save env cfg fuel nl acc1 e4 l hnx h
            | ok acc2 =>
              simp only [hnx] at hres
              cases hdl : page.deltaLink with
              | some dl => simp only [hdl] at hres; simp at hres
              | none => simp only [hdl] at hres; simp at hres
          | none =>
            simp only [hnl] at hres
            cases hdl : page.deltaLink with
            | some dl => simp only [hdl] at hres; simp at hres
            | none => simp only [hdl] at hres; simp at hres
      · rw [if_neg hlen] at hres
        simp at hres

/-- The cursor-loading block never starts an item transfer. -/
theorem cursorLoad_no_transfer (env : Env) (cfg : Config) (i : String) :
    Event.transferStart i ∉ (cursorLoad env cfg).1 := by
  intro hmem
  unfold cursorLoad at hmem
  by_cases hdl : (s3_ops env "/tmp/deltaLink.json" "deltaLink.json" "download").2 = true
  · rw [if_pos hdl] at hmem
    cases hsc : env.storedCursor with
    | some l =>
      simp only [hsc] at hmem
      by_cases hrm : env.removeOk "/tmp/deltaLink.json" = true
      · rw [if_pos hrm] at hmem
        rcases List.mem_append.mp hmem with h | h
        · exact s3_ops_no_transfer env "/tmp/deltaLink.json" "deltaLink.json" "download" i h
        · simp at h
      · rw [if_neg hrm] at hmem
        rcases List.mem_append.mp hmem with h | h
        · exact s3_ops_no_transfer env "/tmp/deltaLink.json" "deltaLink.json" "download" i h
        · simp at h
    | none =>
      simp only [hsc] at hmem
      exact s3_ops_no_transfer env "/tmp/deltaLink.json" "deltaLink.json" "download" i hmem
  · rw [if_neg hdl] at hmem
    exact s3_ops_no_transfer env "/tmp/deltaLink.json" "deltaLink.json" "download" i hmem

/-- An item transfer succeeds (as far as exceptions are concerned)
whenever the content fetch eventually succeeds and the record carries a
`path_relative`, regardless of staging, upload and cleanup outcomes. -/
theorem onedrive_download_ok (env : Env) (r : ChangeRecord) (pref : ParentReference)
    (prel : String) (hpr : r.parentReference = some pref)
    (hprel : pref.path_relative = some prel)
    (hc : env.content r.id 0 = true ∨ (env.tokenOk = true ∧ env.content r.id 1 = true)) :
    (onedrive_download env r).2 = .ok () := by
  have hfs : filename_s3 r = .ok (prel ++ "/" ++ r.name) := by
    simp [filename_s3, hpr, hprel]
  by_cases h0 : env.content r.id 0 = true
  · simp only [onedrive_download, hpr, h0, if_true, hfs]
  · have hc2 : env.tokenOk = true ∧ env.content r.id 1 = true := by
      rcases hc with h | h
      · exact absurd h h0
      · exact h
    simp only [onedrive_download, hpr, h0, hc2.1, hc2.2, if_true, if_false, hfs,
      Bool.false_eq_true]

/-- The transfer loop completes and starts a transfer for every file
entry as long as each file entry has a usable content fetch and carries
a `path_relative`; staging, upload and cleanup failures never stop it. -/
theorem transferLoop_ok (env : Env) :
    ∀ s : List (String × ChangeRecord),
      (∀ kv ∈ s, kv.2.hasFile = true →
        ((env.content kv.2.id 0 = true ∨
            (env.tokenOk = true ∧ env.content kv.2.id 1 = true)) ∧
          ∃ pref prel, kv.2.parentReference = some pref ∧
            pref.path_relative = some prel)) →
      (transferLoop env s).2 = .ok () ∧
      ∀ kv ∈ s, kv.2.hasFile = true →
        Event.transferStart kv.2.id ∈ (transferLoop env s).1
  | [], _ => by simp [transferLoop]
  | (k, v) :: rest, hall => by
    have ih := transferLoop_ok env rest
      (fun kv hkv hhf => hall kv (List.mem_cons_of_mem _ hkv) hhf)
    by_cases hf : v.hasFile = true
    · rcases hall (k, v) (List.mem_cons_self _ _) hf with ⟨hc, pref, prel, hpr, hprel⟩
      have hok : (onedrive_download env v).2 = .ok () :=
        onedrive_download_ok env v pref prel hpr hprel hc
      have heq : transferLoop env ((k, v) :: rest) =
          (Event.transferStart v.id ::
            ((onedrive_download env v).1 ++ (transferLoop env rest).1),
           (transferLoop env rest).2) := by
        simp only [transferLoop, hf, if_true]
        rw [hok]
      rw [heq]
      refine ⟨ih.1, ?_⟩
      intro kv hkv hhf
      rcases List.mem_cons.mp hkv with hkv | hkv
      · rw [hkv]
        exact List.mem_cons_self _ _
      · exact List.mem_cons_of_mem _ (List.mem_append_right _ (ih.2 kv hkv hhf))
    · have heq : transferLoop env ((k, v) :: rest) = transferLoop env rest := by
        simp only [transferLoop, hf, Bool.false_eq_true, if_false]
      rw [heq]
      refine ⟨ih.1, ?_⟩
      intro kv hkv hhf
      rcases List.mem_cons.mp hkv with hkv | hkv
      · rw [hkv] at hhf
        exact absurd hhf hf
      · exact ih.2 kv hkv hhf

/-- C1: the claim states the traversal follows the next-page marker of
every non-terminal page, including pages with zero change entries.  On
the code this fails: the feed of `envC1` serves at `"u0"` a page with an
empty `value` array and next-page marker `"u1"`, and `delta_gather`
returns after the single request for `"u0"`, never requesting `"u1"`.
This theorem evaluates the embedded code at that failing input. -/
theorem C1_empty_page_stops_traversal :
    envC1.feed "u0" 0 = .ok pgC1a ∧ pgC1a.nextLink = some "u1" ∧
    envC1.feed "u1" 0 = .ok pgC1b ∧
    delta_gather envC1 cfgT 5 "u0" [] = ([Event.pageRequest "u0" 0], .ok []) :=
  ⟨rfl, rfl, rfl, rfl⟩

/-- C2: the claim states every terminal page's marker is persisted,
including a terminal page with zero change entries.  On the code this
fails: the feed of `envC2` serves the single terminal page `pgC2` with
empty `value` and terminal marker `"nc"`, and the traversal returns
without writing or uploading any cursor.  This theorem evaluates the
embedded code at that failing input. -/
theorem C2_empty_terminal_page_not_persisted :
    envC2.feed "t0" 0 = .ok pgC2 ∧ pgC2.deltaLink = some "nc" ∧
    delta_gather envC2 cfgT 5 "t0" [] = ([Event.pageRequest "t0" 0], .ok []) :=
  ⟨rfl, rfl, rfl⟩

/-- C3 counterexample: in the feed of `envC3` the id `"X"` appears in two
records of the traversal, yet the final change set holds no entry at all
for `"X"` (both records fail the relevance filter), refuting the claim
that any id occurring in more than one record ends with exactly one
entry equal to its last occurrence. -/
theorem C3_counterexample :
    pgC3.value.map ChangeRecord.id = ["X", "X"] ∧
    (delta_gather envC3 cfgT 5 "c0" []).2 = .ok [] ∧
    List.lookup "X" ([] : List (String × ChangeRecord)) = none :=
  ⟨rfl, rfl, rfl⟩

/-- C3 (amended): for every id with at least one accepted (relevance
passing) record, the final change set holds exactly one entry for that
id, equal to the last accepted occurrence in traversal order with its
relative-path annotation applied. -/
theorem C3_last_accepted_occurrence_wins (cfg : Config) (records : List ChangeRecord)
    (s : List (String × ChangeRecord)) (k : String) (w : ChangeRecord)
    (hacc : accumulate cfg records [] = .ok s)
    (hlast : (records.filter (fun r => acceptsB cfg r && r.id == k)).getLast? = some w) :
    List.count k (s.map Prod.fst) = 1 ∧ List.lookup k s = some (annotate w) := by
  have h := accumulate_lookup cfg k records [] s (by simp) hacc
  have h2 := h.2
  rw [hlast] at h2
  exact ⟨List.count_eq_one_of_mem h.1 (lookup_some_mem_keys k (annotate w) s h2), h2⟩

/-- C3 witness: two accepted records with id `"X"`; the set keeps exactly
the second, annotated. -/
theorem C3_witness :
    List.count "X" (([("X", annotate recC3w2)] : List (String × ChangeRecord)).map Prod.fst) = 1 ∧
    List.lookup "X" [("X", annotate recC3w2)] = some (annotate recC3w2) :=
  C3_last_accepted_occurrence_wins cfgT [recC3w1, recC3w2] [("X", annotate recC3w2)]
    "X" recC3w2 rfl rfl

/-- C4 counterexample: in `envC4` the page fetch at `"r0"` fails with the
retryable class and the retry succeeds, yet the traversal acquires zero
fresh tokens, refuting the claim that exactly one token is re-acquired
per failing page. -/
theorem C4_counterexample :
    envC4.feed "r0" 0 = .httpError ∧
    (delta_gather envC4 cfgT 5 "r0" []).1 =
      [Event.pageRequest "r0" 0, Event.logError "delta", Event.pageRequest "r0" 1] ∧
    List.count Event.tokenAcquire (delta_gather envC4 cfgT 5 "r0" []).1 = 0 :=
  ⟨rfl, rfl, rfl⟩

/-- A retry-class failure at the first attempt makes the fetch emit the
two page requests and the error line, with the same headers. -/
theorem fetchPage_retry_events (env : Env) (url : String)
    (h0 : env.feed url 0 = .httpError) :
    (fetchPage env url).1 =
      [Event.pageRequest url 0, Event.logError "delta", Event.pageRequest url 1] := by
  unfold fetchPage
  rw [h0]
  cases h1 : env.feed url 1 <;> rfl

/-- When both attempts fail, the fetch raises. -/
theorem fetchPage_retry_fail (env : Env) (url : String)
    (h0 : env.feed url 0 = .httpError)
    (h1 : env.feed url 1 = .httpError ∨ env.feed url 1 = .otherError) :
    (fetchPage env url).2 = .error .feedError := by
  unfold fetchPage
  rw [h0]
  rcases h1 with h | h <;> rw [h]

/-- A failing page fetch makes `delta_gather` surface the error with the
fetch events as its whole trace. -/
theorem delta_gather_fetch_error (env : Env) (cfg : Config) (fuel : Nat) (url : String)
    (acc : List (String × ChangeRecord)) (e : RunError)
    (h : (fetchPage env url).2 = .error e) :
    delta_gather env cfg (fuel + 1) url acc = ((fetchPage env url).1, .error e) := by
  simp only [delta_gather, h]

/-- The fetch events open the traversal's trace. -/
theorem delta_gather_trace_lead (env : Env) (cfg : Config) (fuel : Nat) (url : String)
    (acc : List (String × ChangeRecord)) :
    ∃ rest, (delta_gather env cfg (fuel + 1) url acc).1 = (fetchPage env url).1 ++ rest := by
  simp only [delta_gather]
  cases hres : (fetchPage env url).2 with
  | error e => exact ⟨[], by simp [hres]⟩
  | ok page =>
    simp only [hres]
    by_cases hlen : 0 < page.value.length
    · rw [if_pos hlen]
      cases hacc : accumulate cfg page.value acc with
      | error e => exact ⟨[], by simp⟩
      | ok acc1 =>
        cases hnl : page.nextLink with
        | some nl =>
          cases hnx : (delta_gather env cfg fuel nl acc1).2 with
          | error e => exact ⟨(delta_gather env cfg fuel nl acc1).1, by simp [hnx]⟩
          | ok acc2 =>
            cases hdl : page.deltaLink with
            | some dl =>
              refine ⟨(delta_gather env cfg fuel nl acc1).1 ++
                Event.cursorSave dl ::
                  (s3_ops env "/tmp/deltaLink.json" "deltaLink.json" "upload").1 ++
                (if (s3_ops env "/tmp/deltaLink.json" "deltaLink.json" "upload").2 then
                  if env.removeOk "/tmp/deltaLink.json" then
                    [Event.fileRemove "/tmp/deltaLink.json"]
                  else [Event.fileRemove "/tmp/deltaLink.json", Event.logError "remove"]
                 else []), ?_⟩
              simp [hnx, hdl, List.append_assoc]
            | none => exact ⟨(delta_gather env cfg fuel nl acc1).1, by simp [hnx, hdl]⟩
        | none =>
          cases hdl : page.deltaLink with
          | some dl =>
            refine ⟨Event.cursorSave dl ::
                (s3_ops env "/tmp/deltaLink.json" "deltaLink.json" "upload").1 ++
              (if (s3_ops env "/tmp/deltaLink.json" "deltaLink.json" "upload").2 then
                if env.removeOk "/tmp/deltaLink.json" then
                  [Event.fileRemove "/tmp/deltaLink.json"]
                else [Event.fileRemove "/tmp/deltaLink.json", Event.logError "remove"]
               else []), ?_⟩
            simp [hdl]
          | none => exact ⟨[], by simp [hdl]⟩
    · rw [if_neg hlen]
      exact ⟨[], by simp⟩

/-- C4 (amended): the feed traversal never re-acquires a token; a page
fetch failing with the retryable class is retried exactly once with the
same headers, and when the retry also fails the run aborts with the
error surfaced before any cursor is persisted. -/
theorem C4_retry_without_fresh_token (env : Env) (cfg : Config) (fuel : Nat)
    (url : String) (acc : List (String × ChangeRecord)) :
    Event.tokenAcquire ∉ (delta_gather env cfg (fuel + 1) url acc).1 ∧
    (env.feed url 0 = .httpError →
      Event.pageRequest url 1 ∈ (delta_gather env cfg (fuel + 1) url acc).1) ∧
    (env.feed url 0 = .httpError →
      (env.feed url 1 = .httpError ∨ env.feed url 1 = .otherError) →
      (delta_gather env cfg (fuel + 1) url acc).2 = .error .feedError ∧
      ∀ l, Event.cursorSave l ∉ (delta_gather env cfg (fuel + 1) url acc).1) := by
  refine ⟨delta_gather_no_token env cfg (fuel + 1) url acc, ?_, ?_⟩
  · intro h0
    rcases delta_gather_trace_lead env cfg fuel url acc with ⟨rest, hrest⟩
    rw [hrest, fetchPage_retry_events env url h0]
    exact List.mem_append_left _ (by simp)
  · intro h0 h1
    have he := fetchPage_retry_fail env url h0 h1
    have hdg := delta_gather_fetch_error env cfg fuel url acc .feedError he
    rw [hdg]
    exact ⟨rfl, fun l => fetchPage_no_save env url l⟩

/-- C4 witness: a page failing on both attempts is requested twice, no
token is acquired, the run aborts and no cursor is saved. -/
theorem C4_witness :
    Event.tokenAcquire ∉ (delta_gather envC4w cfgT 1 "w0" []).1 ∧
    Event.pageRequest "w0" 1 ∈ (delta_gather envC4w cfgT 1 "w0" []).1 ∧
    (delta_gather envC4w cfgT 1 "w0" []).2 = .error .feedError ∧
    Event.cursorSave "nc" ∉ (delta_gather envC4w cfgT 1 "w0" []).1 := by
  have h := C4_retry_without_fresh_token envC4w cfgT 0 "w0" []
  have hb := h.2.1 rfl
  have hc := h.2.2 rfl (Or.inl rfl)
  exact ⟨h.1, hb, hc.1, hc.2 "nc"⟩

/-- C5: a raw record enters the change set exactly when it carries a
parent path and its name equals the configured target folder or its
parent path contains the configured target drive id; in particular a
record without a parent path never enters. -/
theorem C5_relevance_filter (cfg : Config) (r : ChangeRecord) :
    entersChangeSet cfg r ↔
      ∃ pref p, r.parentReference = some pref ∧ pref.path = some p ∧
        (r.name = cfg.target_folder ∨ strIn cfg.target_driveID p = true) := by
  constructor
  · rintro ⟨r2, hr2⟩
    rcases acceptsB_of_processRecord_some cfg r r2 hr2 with ⟨hb, _⟩
    cases hpr : r.parentReference with
    | none => simp [acceptsB, hpr] at hb
    | some pref =>
      cases hp : pref.path with
      | none => simp [acceptsB, hpr, hp] at hb
      | some p =>
        simp only [acceptsB, hpr, hp, Bool.or_eq_true, beq_iff_eq] at hb
        exact ⟨pref, p, rfl, hp, hb⟩
  · rintro ⟨pref, p, hpr, hp, hcond⟩
    have hb : acceptsB cfg r = true := by
      simp only [acceptsB, hpr, hp, Bool.or_eq_true, beq_iff_eq]
      exact hcond
    exact ⟨annotate r, processRecord_of_acceptsB cfg r hb⟩

/-- C5 witness: a record whose name matches the target folder enters the
change set even though its path does not mention the target drive id. -/
theorem C5_witness :
    entersChangeSet cfgT recC5 ∧ strIn cfgT.target_driveID "zz" = false :=
  ⟨(C5_relevance_filter cfgT recC5).mpr ⟨mkPref "zz", "zz", rfl, rfl, Or.inl rfl⟩, rfl⟩

/-- C6: every accepted record is stored carrying, as its sink-relative
path, the suffix of its full parent path after the first 80 characters,
and the upload key is that relative path joined to the record's name. -/
theorem C6_relative_path_is_drop80 (cfg : Config) (r r2 : ChangeRecord)
    (pref : ParentReference) (p : String)
    (hpr : r.parentReference = some pref) (hp : pref.path = some p)
    (hproc : processRecord cfg r = .ok (some r2)) :
    (∃ pref2, r2.parentReference = some pref2 ∧
      pref2.path_relative = some (pyDrop p 80)) ∧
    filename_s3 r2 = .ok (pyDrop p 80 ++ "/" ++ r.name) := by
  rcases acceptsB_of_processRecord_some cfg r r2 hproc with ⟨_, hr2⟩
  subst hr2
  constructor
  · refine ⟨{ pref with path_relative := some (pyDrop p 80) }, ?_, rfl⟩
    simp [annotate, hpr, hp]
  · simp [filename_s3, annotate, hpr, hp]

/-- C6 witness: an 80-character drive prefix is stripped from a concrete
parent path and the upload key is built from the remainder. -/
theorem C6_witness :
    (∃ pref2, (annotate recC6).parentReference = some pref2 ∧
      pref2.path_relative = some (pyDrop pathC6 80)) ∧
    filename_s3 (annotate recC6) = .ok (pyDrop pathC6 80 ++ "/" ++ recC6.name) ∧
    pyDrop pathC6 80 = "/Reports/Q1" := by
  have h := C6_relative_path_is_drop80 cfgT recC6 (annotate recC6) (mkPref pathC6)
    pathC6 rfl rfl rfl
  exact ⟨h.1, h.2, by decide⟩

/-- C7 counterexample: item `"B"` sits in the final change set behind
item `"A"` whose content fetch fails twice; the run aborts with the
fetch error and `"B"` is never processed, refuting the claim that no
item's transfer failure prevents a sibling's transfer. -/
theorem C7_counterexample :
    (delta_gather envC7 cfgT 1 (cursorLoad envC7 cfgT).2 []).2 = .ok sC7 ∧
    (annotate recC7b).hasFile = true ∧
    (main envC7 cfgT 1).2 = .error .fetchError ∧
    Event.transferStart "A" ∈ (main envC7 cfgT 1).1 ∧
    List.count (Event.transferStart "B") (main envC7 cfgT 1).1 = 0 := by
  refine ⟨rfl, rfl, rfl, by decide, by decide⟩

/-- C7 (amended): staging-write, upload and cleanup failures are logged
and abort nothing — every file entry of the change set is still
processed; a content fetch failure is retried once with a fresh token,
and only a persistently failing content fetch (or token re-acquisition)
aborts the loop. -/
theorem C7_per_item_isolation (env : Env) (s : List (String × ChangeRecord))
    (hall : ∀ kv ∈ s, kv.2.hasFile = true →
      ((env.content kv.2.id 0 = true ∨
          (env.tokenOk = true ∧ env.content kv.2.id 1 = true)) ∧
        ∃ pref prel, kv.2.parentReference = some pref ∧
          pref.path_relative = some prel)) :
    (transferLoop env s).2 = .ok () ∧
    ∀ kv ∈ s, kv.2.hasFile = true →
      Event.transferStart kv.2.id ∈ (transferLoop env s).1 :=
  transferLoop_ok env s hall

/-- C7 witness: with every staging write, upload and removal failing,
both items of the change set are still processed and the loop
completes. -/
theorem C7_witness :
    (transferLoop envC7w sC7).2 = .ok () ∧
    Event.transferStart "A" ∈ (transferLoop envC7w sC7).1 ∧
    Event.transferStart "B" ∈ (transferLoop envC7w sC7).1 := by
  have hall : ∀ kv ∈ sC7, kv.2.hasFile = true →
      ((envC7w.content kv.2.id 0 = true ∨
          (envC7w.tokenOk = true ∧ envC7w.content kv.2.id 1 = true)) ∧
        ∃ pref prel, kv.2.parentReference = some pref ∧
          pref.path_relative = some prel) := by
    intro kv hkv _
    rcases List.mem_cons.mp hkv with h | h
    · subst h
      exact ⟨Or.inl rfl,
        ⟨({ driveId := "dr", path := some "xDIDy",
            path_relative := some (pyDrop "xDIDy" 80) } : ParentReference), "", rfl, rfl⟩⟩
    · rcases List.mem_cons.mp h with h | h
      · subst h
        exact ⟨Or.inl rfl,
          ⟨({ driveId := "dr", path := some "xDIDz",
              path_relative := some (pyDrop "xDIDz" 80) } : ParentReference), "", rfl, rfl⟩⟩
      · exact absurd h (List.not_mem_nil kv)
  have h := C7_per_item_isolation envC7w sC7 hall
  exact ⟨h.1, h.2 ("A", annotate recC7a) (by decide) rfl,
    h.2 ("B", annotate recC7b) (by decide) rfl⟩

/-- C8 counterexample: when removing the staged content file `/tmp/g`
fails, the removal of the companion `/tmp/g.json` is never attempted
(both removals share one exception handler), refuting the claim that
removal is attempted for both files regardless of a removal failure;
the failure is still logged and not fatal. -/
theorem C8_counterexample :
    Event.fileRemove "/tmp/g" ∈ (onedrive_download envC8 recC8).1 ∧
    Event.logError "remove" ∈ (onedrive_download envC8 recC8).1 ∧
    List.count (Event.fileRemove "/tmp/g.json") (onedrive_download envC8 recC8).1 = 0 ∧
    (onedrive_download envC8 recC8).2 = .ok () := by
  refine ⟨by decide, by decide, by decide, rfl⟩

/-- C8 (amended): after the uploads, removal of the staged content file
is attempted regardless of either upload's outcome; removal of the
companion metadata file is attempted whenever the content-file removal
succeeded; and no removal failure is fatal to the item or the run. -/
theorem C8_cleanup_within_one_handler (env : Env) (r : ChangeRecord)
    (pref : ParentReference) (prel : String)
    (hpr : r.parentReference = some pref) (hprel : pref.path_relative = some prel)
    (h0 : env.content r.id 0 = true) :
    Event.fileRemove ("/tmp/" ++ r.name) ∈ (onedrive_download env r).1 ∧
    (env.removeOk ("/tmp/" ++ r.name) = true →
      Event.fileRemove ("/tmp/" ++ r.name ++ ".json") ∈ (onedrive_download env r).1) ∧
    (onedrive_download env r).2 = .ok () := by
  have hfs : filename_s3 r = .ok (prel ++ "/" ++ r.name) := by
    simp [filename_s3, hpr, hprel]
  simp only [onedrive_download, hpr, h0, if_true, hfs]
  have hcl : Event.fileRemove ("/tmp/" ++ r.name) ∈
      (if env.removeOk ("/tmp/" ++ r.name) then
        if env.removeOk ("/tmp/" ++ r.name ++ ".json") then
          [Event.fileRemove ("/tmp/" ++ r.name),
            Event.fileRemove ("/tmp/" ++ r.name ++ ".json")]
        else [Event.fileRemove ("/tmp/" ++ r.name),
          Event.fileRemove ("/tmp/" ++ r.name ++ ".json"), Event.logError "remove"]
       else [Event.fileRemove ("/tmp/" ++ r.name), Event.logError "remove"]) := by
    by_cases hrm : env.removeOk ("/tmp/" ++ r.name) = true
    · rw [if_pos hrm]
      by_cases hrm2 : env.removeOk ("/tmp/" ++ r.name ++ ".json") = true
      · rw [if_pos hrm2]
        exact List.mem_cons_self _ _
      · rw [if_neg hrm2]
        exact List.mem_cons_self _ _
    · rw [if_neg hrm]
      exact List.mem_cons_self _ _
  refine ⟨List.mem_append_right _ hcl, ?_, by trivial⟩
  intro hrm
  refine List.mem_append_right _ ?_
  rw [if_pos hrm]
  by_cases hrm2 : env.removeOk ("/tmp/" ++ r.name ++ ".json") = true
  · rw [if_pos hrm2]
    exact List.mem_cons_of_mem _ (List.mem_cons_self _ _)
  · rw [if_neg hrm2]
    exact List.mem_cons_of_mem _ (List.mem_cons_self _ _)

/-- C8 witness: with both uploads failing and removals succeeding, both
staged files are removed and the item completes. -/
theorem C8_witness :
    Event.fileRemove "/tmp/g" ∈ (onedrive_download envC8w recC8).1 ∧
    Event.fileRemove "/tmp/g.json" ∈ (onedrive_download envC8w recC8).1 ∧
    (onedrive_download envC8w recC8).2 = .ok () := by
  have h := C8_cleanup_within_one_handler envC8w recC8
    { driveId := "dr", path := some "xDIDy", path_relative := some "rel" } "rel" rfl rfl rfl
  exact ⟨h.1, h.2.1 rfl, h.2.2⟩

/-- C9: a raw record with no `parentReference` key at all makes the
accumulation step raise `KeyError`, which aborts the whole run before
any item transfer starts (instead of being excluded like a record whose
`parentReference` merely lacks a path). -/
theorem C9_missing_parentReference_aborts (env : Env) (cfg : Config) (fuel : Nat)
    (p : DeltaPage) (r : ChangeRecord)
    (htok : env.tokenOk = true)
    (hfeed : env.feed (cursorLoad env cfg).2 0 = .ok p)
    (hr : r ∈ p.value) (hpr : r.parentReference = none) :
    (main env cfg (fuel + 1)).2 = .error .keyError ∧
    ∀ i, Event.transferStart i ∉ (main env cfg (fuel + 1)).1 := by
  have hfp : fetchPage env (cursorLoad env cfg).2 =
      ([Event.pageRequest (cursorLoad env cfg).2 0], .ok p) := by
    unfold fetchPage
    rw [hfeed]
  have hlen : 0 < p.value.length := List.length_pos.mpr (List.ne_nil_of_mem hr)
  have haccE : accumulate cfg p.value [] = .error .keyError :=
    accumulate_error_of_missing cfg r p.value [] hr hpr
  have hdg : delta_gather env cfg (fuel + 1) (cursorLoad env cfg).2 [] =
      ([Event.pageRequest (cursorLoad env cfg).2 0], .error .keyError) := by
    simp only [delta_gather, hfp]
    rw [if_pos hlen]
    simp only [haccE]
  have hmain : main env cfg (fuel + 1) =
      (Event.tokenAcquire ::
        ((cursorLoad env cfg).1 ++ [Event.pageRequest (cursorLoad env cfg).2 0]),
       .error .keyError) := by
    unfold main
    rw [if_pos htok]
    simp only [hdg]
  rw [hmain]
  refine ⟨rfl, ?_⟩
  intro i hmem
  rcases List.mem_cons.mp hmem with h | h
  · exact Event.noConfusion h
  · rcases List.mem_append.mp h with h | h
    · exact cursorLoad_no_transfer env cfg i h
    · simp only [List.mem_singleton] at h
      exact Event.noConfusion h

/-- C9 witness: the run over a feed whose page carries a record without
`parentReference` aborts with `KeyError` and transfers nothing. -/
theorem C9_witness :
    (main envC9 cfgT 1).2 = .error .keyError ∧
    Event.transferStart "N" ∉ (main envC9 cfgT 1).1 := by
  have h := C9_missing_parentReference_aborts envC9 cfgT 0 pgC9 recC9 rfl rfl
    (by decide) rfl
  exact ⟨h.1, h.2 "N"⟩

/-- C10: `s3_ops` called with an action other than `"upload"` and
`"download"` performs no store call, logs the success line, and returns
`True`. -/
theorem C10_unknown_action_succeeds (env : Env) (fl fs action : String)
    (h1 : action ≠ "upload") (h2 : action ≠ "download") :
    s3_ops env fl fs action = ([Event.logSuccess action], true) := by
  have hb1 : (action == "upload") = false := beq_eq_false_iff_ne.mpr h1
  have hb2 : (action == "download") = false := beq_eq_false_iff_ne.mpr h2
  unfold s3_ops
  rw [if_neg (by simp [hb1]), if_neg (by simp [hb2])]

/-- C10 witness: the action `"delete"` performs no store call and
returns success. -/
theorem C10_witness :
    s3_ops baseEnv "/tmp/x" "x" "delete" = ([Event.logSuccess "delete"], true) :=
  C10_unknown_action_succeeds baseEnv "/tmp/x" "x" "delete" (by decide) (by decide)

end OneDriveSync
